import Mathlib

set_option maxRecDepth 40000

/-!
Verification development for gemfileparser (src/gemfileparser/__init__.py).

The library is a line-oriented parser for Ruby Gemfiles and gemspec files.
Its core is a table of Python regular expressions applied with re.match
(anchored at the start of the line, backtracking, leftmost preference:
alternation prefers the left branch, greedy quantifiers prefer longer
matches, lazy quantifiers prefer shorter ones; the first overall success
determines the captured groups).

The embedding below implements that semantics directly: `Re` is a small
regular-expression syntax, `Re.runAll` enumerates every anchored match of
a pattern against a list of characters in exactly the backtracking
preference order of the Python engine, and `reGroup` picks the first
success and returns the text of the (single) named capture group, mirroring
`regex.match(line)` followed by `match.group(name)`.

All definitions are executable and structurally recursive, so concrete
runs reduce inside the kernel (`decide` / `rfl`).
-/

/-- Characters are modelled as Lean `Char`; the two Ruby quote characters
are named to avoid escape noise. -/
def squot : Char := Char.ofNat 39

def dquot : Char := Char.ofNat 34

def backslashChar : Char := Char.ofNat 92

def newlineChar : Char := Char.ofNat 10

/-- Regular-expression syntax. `cls` is a single-character class,
`star r lzy` is `r*` (greedy when `lzy = false`, lazy when `lzy = true`),
`grp` marks the one named capture group a pattern carries. -/
inductive Re where
  | eps : Re
  | cls : (Char → Bool) → Re
  | cat : Re → Re → Re
  | alt : Re → Re → Re
  | star : Re → Bool → Re
  | grp : Re → Re

/-- A match outcome: remaining input paired with the capture, if the
group has been traversed. -/
abbrev MatchRes := List (List Char × Option (List Char))

/-- Iterate a star body. `body` returns all ways one body copy can match,
in preference order; an iteration must consume at least one character
(all star bodies in the embedded patterns consume, matching the Python
engine, which stops repeating on an empty-width match). The budget `n`
starts at the length of the input, which strict consumption makes
sufficient, so the enumeration is exact. Greedy stars list longer
consumptions first, lazy stars list the empty consumption first. -/
def starIter (body : List Char → Option (List Char) → MatchRes) (lzy : Bool) :
    Nat → List Char → Option (List Char) → MatchRes
  | 0, s, c => [(s, c)]
  | n + 1, s, c =>
    let firsts := (body s c).filter (fun p => p.1.length < s.length)
    let more := firsts.flatMap (fun p => starIter body lzy n p.1 p.2)
    if lzy then (s, c) :: more else more ++ [(s, c)]

/-- All anchored matches of `r` against `s`, in backtracking preference
order: the head of the list is the match Python `re.match` commits to. -/
def Re.runAll : Re → List Char → Option (List Char) → MatchRes
  | .eps, s, c => [(s, c)]
  | .cls _, [], _ => []
  | .cls p, a :: s, c => if p a then [(s, c)] else []
  | .cat r1 r2, s, c => (r1.runAll s c).flatMap (fun q => r2.runAll q.1 q.2)
  | .alt r1 r2, s, c => r1.runAll s c ++ r2.runAll s c
  | .star r lzy, s, c => starIter (fun s' c' => r.runAll s' c') lzy s.length s c
  | .grp r, s, c =>
    (r.runAll s c).map (fun q => (q.1, some (s.take (s.length - q.1.length))))

/-- Python `regex.match(line)` followed by `match.group(<the named group>)`:
`none` when the pattern does not match at the start of the line, otherwise
the text the named group captured in the first (preferred) match. Every
embedded pattern traverses its group on success, so the capture is always
present there; `[]` is a formal default. -/
def reGroup (r : Re) (line : String) : Option String :=
  match r.runAll line.toList none with
  | [] => none
  | q :: _ => some (String.mk (q.2.getD []))

def Re.chr (c : Char) : Re := .cls (fun a => a == c)

def Re.str (s : String) : Re := s.toList.foldr (fun c r => Re.cat (Re.chr c) r) Re.eps

def Re.plus (r : Re) : Re := .cat r (.star r false)

def Re.opt (r : Re) : Re := .alt r .eps

def Re.seq (l : List Re) : Re := l.foldr Re.cat Re.eps

/-- The dot of the patterns: any character except a newline. -/
def rdot : Re := .cls (fun c => c != newlineChar)

def anyStar : Re := .star rdot false

def anyStarLazy : Re := .star rdot true

def spStar : Re := .star (Re.chr ' ') false

/-- The class [<q>] of the patterns: a single or a double quote. -/
def isQuote (c : Char) : Bool := c == squot || c == dquot

/-- The class [a-zA-Z:\/\.-] : letters plus colon, slash, dot, hyphen
(the trailing hyphen is literal). -/
def isUrlChar (c : Char) : Bool :=
  c.isAlpha || c == ':' || c == '/' || c == '.' || c == '-'

/-- The class [a-zA-Z:\/\.-\\] : letters, colon, slash, and the range
from dot (0x2E) to backslash (0x5C) formed by the escaped endpoints. -/
def isSrcChar (c : Char) : Bool :=
  c.isAlpha || c == ':' || c == '/' || ('.' ≤ c && c ≤ backslashChar)

/-- The class [a-zA-Z:\/\.-0-9] : letters, colon, slash, the range from
dot (0x2E) to the digit zero (0x30), then literal hyphen and literal
nine. -/
def isGithubChar (c : Char) : Bool :=
  c.isAlpha || c == ':' || c == '/' || ('.' ≤ c && c ≤ '0') || c == '-' || c == '9'

/-- The class [>|<|=|~>|\d] : the listed operator characters (the pipe is
a member like any other) and the digits. -/
def isReqOpChar (c : Char) : Bool :=
  c == '>' || c == '|' || c == '<' || c == '=' || c == '~' || c.isDigit

/-- The class [0-9\.\w] : digits, dot, and word characters
(ASCII letters, digits, underscore). -/
def isReqVerChar (c : Char) : Bool :=
  c.isDigit || c == '.' || c.isAlpha || c == '_'

/-- The class [ ,] : space or comma. -/
def isSpaceComma (c : Char) : Bool := c == ' ' || c == ','

/-- The alternative (:|[ ]?=>) shared by the attribute patterns. -/
def keySep : Re := .alt (Re.chr ':') (.cat (Re.opt (Re.chr ' ')) (Re.str ("=>")))

/-- gemfile_regexes[name] : gem [<q>](?P<name>.*?)[<q>] -/
def nameRe : Re :=
  Re.seq [Re.str ("gem "), .cls isQuote, .grp anyStarLazy, .cls isQuote]

/-- gemfile_regexes[source] : .*source(:|[ ]?=>)[ ]*[<q>](?P<source>[a-zA-Z:\/\.-\\]+)[<q>].* -/
def sourceRe : Re :=
  Re.seq [anyStar, Re.str ("source"), keySep, spStar, .cls isQuote,
    .grp (Re.plus (.cls isSrcChar)), .cls isQuote, anyStar]

/-- gemfile_regexes[git] : .*git(:|[ ]?=>)[ ]*(?P<git>[a-zA-Z:\/\.-]+).* -/
def gitRe : Re :=
  Re.seq [anyStar, Re.str ("git"), keySep, spStar, .grp (Re.plus (.cls isUrlChar)), anyStar]

/-- gemfile_regexes[platform] : .*platform(:|[ ]?=>)[ ]*(?P<platform>[a-zA-Z:\/\.-]+).* -/
def platformRe : Re :=
  Re.seq [anyStar, Re.str ("platform"), keySep, spStar, .grp (Re.plus (.cls isUrlChar)), anyStar]

/-- gemfile_regexes[platforms] : .*platforms(:|[ ]?=>)[ ]*(?P<platforms>\[.*\])[,]?.* -/
def platformsRe : Re :=
  Re.seq [anyStar, Re.str ("platforms"), keySep, spStar,
    .grp (Re.seq [Re.chr '[', anyStar, Re.chr ']']), Re.opt (Re.chr ','), anyStar]

/-- gemfile_regexes[path] : .*path(:|[ ]?=>)[ ]*(?P<path>.+[<q>\)]).* -/
def isPathEnd (c : Char) : Bool := isQuote c || c == ')'

def pathRe : Re :=
  Re.seq [anyStar, Re.str ("path"), keySep, spStar,
    .grp (.cat (Re.plus rdot) (.cls isPathEnd)), anyStar]

/-- gemfile_regexes[github] : .*github(:|[ ]?=>)[ ]*[<q>](?P<github>[a-zA-Z:\/\.-0-9]+)[<q>].* -/
def githubRe : Re :=
  Re.seq [anyStar, Re.str ("github"), keySep, spStar, .cls isQuote,
    .grp (Re.plus (.cls isGithubChar)), .cls isQuote, anyStar]

/-- gemfile_regexes[branch] : .*branch(:|[ ]?=>)[ ]*(?P<branch>[a-zA-Z:\/\.-]+).* -/
def branchRe : Re :=
  Re.seq [anyStar, Re.str ("branch"), keySep, spStar, .grp (Re.plus (.cls isUrlChar)), anyStar]

/-- gemfile_regexes[autorequire] : .*require(:|[ ]?=>)[ ]*(?P<autorequire>[a-zA-Z:\/\.-]+).* -/
def autorequireRe : Re :=
  Re.seq [anyStar, Re.str ("require"), keySep, spStar, .grp (Re.plus (.cls isUrlChar)), anyStar]

/-- gemfile_regexes[group] : .*group(:|[ ]?=>)[ ]*(?P<group>[a-zA-Z:\/\.-]+).* -/
def groupRe : Re :=
  Re.seq [anyStar, Re.str ("group"), keySep, spStar, .grp (Re.plus (.cls isUrlChar)), anyStar]

/-- gemfile_regexes[groups] : .*groups(:|[ ]?=>)[ ]*(?P<groups>\[.*\]),.* -/
def groupsRe : Re :=
  Re.seq [anyStar, Re.str ("groups"), keySep, spStar,
    .grp (Re.seq [Re.chr '[', anyStar, Re.chr ']']), Re.chr ',', anyStar]

/-- One clause of the requirement pattern:
([>|<|=|~>|\d]+[ ]*[0-9\.\w]+[ ,]*) . The inner parenthesis of the Python
pattern is a capture group that the code never reads, so it is embedded
without a capture marker. -/
def reqClause : Re :=
  Re.seq [Re.plus (.cls isReqOpChar), spStar, Re.plus (.cls isReqVerChar),
    .star (.cls isSpaceComma) false]

/-- gemfile_regexes[requirement] :
gem[ ][<q>].*?[<q>](?P<requirement>([>|<|=|~>|\d]+[ ]*[0-9\.\w]+[ ,]*)+).* -/
def requirementRe : Re :=
  Re.seq [Re.str ("gem "), .cls isQuote, anyStarLazy, .cls isQuote,
    .grp (Re.plus reqClause), anyStar]

/-- group_block_regex : .*group[ ]?(:|[ ]?=>)[ ]*(?P<groupblock>.*?) do -/
def group_block_regex : Re :=
  Re.seq [anyStar, Re.str ("group"), Re.opt (Re.chr ' '), keySep, spStar,
    .grp anyStarLazy, Re.str (" do")]

/-- add_dvtdep_regex : .*add_development_dependency (?P<line>.*) -/
def add_dvtdep_regex : Re :=
  Re.seq [anyStar, Re.str ("add_development_dependency "), .grp anyStar]

/-- add_rundep_regex : .*add_runtime_dependency (?P<line>.*) -/
def add_rundep_regex : Re :=
  Re.seq [anyStar, Re.str ("add_runtime_dependency "), .grp anyStar]

/-!
Data model. `Dependency` mirrors `GemfileParser.Dependency.__init__`.
The Python fields `platforms` and `groups` are initialized to an empty
list there, but on a pattern match `setattr` replaces them with the raw
captured string; `none` models the never-read initial list. The fields
`path`, `git`, `github` and `branch` are absent from `__init__` and are
created dynamically by `setattr` on first match; `none` models their
absence.
-/

structure Dependency where
  name : Option String := none
  requirement : List String := []
  autorequire : Option String := none
  source : Option String := none
  parent : List String := []
  group : Option String := none
  platform : Option String := none
  platforms : Option String := none
  groups : Option String := none
  path : Option String := none
  git : Option String := none
  github : Option String := none
  branch : Option String := none
deriving DecidableEq

/-- The collection `self.dependencies`: a Python dict from group name to the list of
dependencies filed there, modelled as an association list in insertion
order (Python dicts preserve insertion order; keys are unique). -/
abbrev Deps := List (String × List Dependency)

def Deps.lookup : Deps → String → Option (List Dependency)
  | [], _ => none
  | (k, l) :: rest, key => if k = key then some l else Deps.lookup rest key

/-- Python `self.dependencies[key].append(dep)` on an existing key: the first
entry with that key gets the dependency appended. -/
def Deps.updateFirst : Deps → String → Dependency → Deps
  | [], _, _ => []
  | (k, l) :: rest, key, dep =>
    if k = key then (k, l ++ [dep]) :: rest else (k, l) :: Deps.updateFirst rest key dep

/-- The filing step at the end of `parse_line`: append under the group
key when present, otherwise create the key with a one-element list. -/
def Deps.file (d : Deps) (key : String) (dep : Dependency) : Deps :=
  match d.lookup key with
  | some _ => d.updateFirst key dep
  | none => d ++ [(key, [dep])]

/-- Total number of filed dependency records. -/
def Deps.total (d : Deps) : Nat := (d.map (fun p => p.2.length)).sum

/-- The dict literal assigned to `self.dependencies` in `__init__`. -/
def initDeps : Deps :=
  [(("development"), []), (("runtime"), []), (("test"), []),
   (("production"), []), (("metrics"), [])]

/-!
Line preprocessing. `preprocess` removes everything from the first hash
character on (`line[:line.index(<hash>)]`, guarded by a containment test
exactly as in the source) and then strips surrounding whitespace
(`line.strip()`, modelled over the ASCII whitespace characters).
-/

def isPySpace (c : Char) : Bool :=
  c == ' ' || c == Char.ofNat 9 || c == Char.ofNat 10 || c == Char.ofNat 13 ||
    c == Char.ofNat 11 || c == Char.ofNat 12

def pyStrip (l : List Char) : List Char :=
  ((l.dropWhile isPySpace).reverse.dropWhile isPySpace).reverse

/-- The body of `preprocess` over the character list of the line. -/
def preprocessList (chars : List Char) : List Char :=
  pyStrip (if chars.contains '#' then chars.takeWhile (fun c => c != '#') else chars)

def preprocess (line : String) : String := String.mk (preprocessList line.toList)

/-!
The ordered pattern table and `parse_line`. The table order is the
insertion order of the `OrderedDict` in the source; `setField` is the
explicit form of `setattr(dep, criteria, match.group(criteria))`, and the
`requirement` criteria appends instead of overwriting, as in the source.
-/

def gemfile_regexes : List (String × Re) :=
  [(("name"), nameRe), (("source"), sourceRe), (("git"), gitRe),
   (("platform"), platformRe), (("platforms"), platformsRe), (("path"), pathRe),
   (("github"), githubRe), (("branch"), branchRe), (("autorequire"), autorequireRe),
   (("group"), groupRe), (("groups"), groupsRe), (("requirement"), requirementRe)]

def setField (dep : Dependency) (criteria : String) (v : String) : Dependency :=
  if criteria = "name" then { dep with name := some v }
  else if criteria = "source" then { dep with source := some v }
  else if criteria = "git" then { dep with git := some v }
  else if criteria = "platform" then { dep with platform := some v }
  else if criteria = "platforms" then { dep with platforms := some v }
  else if criteria = "path" then { dep with path := some v }
  else if criteria = "github" then { dep with github := some v }
  else if criteria = "branch" then { dep with branch := some v }
  else if criteria = "autorequire" then { dep with autorequire := some v }
  else if criteria = "group" then { dep with group := some v }
  else if criteria = "groups" then { dep with groups := some v }
  else dep

/-- One iteration of the criteria loop in `parse_line`. -/
def applyCriteria (line : String) (dep : Dependency) (c : String × Re) : Dependency :=
  match reGroup c.2 line with
  | none => dep
  | some v =>
    if c.1 = "requirement" then { dep with requirement := dep.requirement ++ [v] }
    else setField dep c.1 v

/-- The dependency object `parse_line` builds before filing: `group` is
initialized from the current Group State, `parent` holds the configured
application name when one is set, then every pattern of the table is
attempted in order. -/
def buildDep (appname global_group line : String) : Dependency :=
  let dep0 : Dependency :=
    { group := some global_group, parent := if appname = "" then [] else [appname] }
  gemfile_regexes.foldl (applyCriteria line) dep0

/-- The function `parse_line`: build the dependency, then file it under its `group`
attribute. `buildDep` always sets `group` (it starts as the current Group
State and a `group:` match can only replace it with another string), so
the `getD` default is unreachable padding for the `Option` type. -/
def parse_line (appname global_group line : String) (d : Deps) : Deps :=
  let dep := buildDep appname global_group line
  d.file (dep.group.getD global_group) dep

/-!
The two dialect parsers. Group State (`GemfileParser.global_group`, a
class attribute shared by a Gemfile parse and any gemspec parse it
triggers) and the result collection are threaded as explicit state.
File reading and gemspec discovery are external collaborators: a parse
receives its lines as `List String`, and the glob result of
`*.gemspec` sibling discovery as `List (List String)` (the lines of each
discovered file).
-/

structure ParserState where
  global_group : String
  dependencies : Deps
deriving DecidableEq

/-- One line of `parse_gemspec`: preprocess, try the development
directive, else the runtime directive; on a match set Group State and run
the captured remainder of the line through `parse_line`. -/
def gemspecStep (appname : String) (st : ParserState) (rawline : String) : ParserState :=
  let line := preprocess rawline
  match reGroup add_dvtdep_regex line with
  | some rest =>
    { global_group := ("development"),
      dependencies := parse_line appname ("development") rest st.dependencies }
  | none =>
    match reGroup add_rundep_regex line with
    | some rest =>
      { global_group := ("runtime"),
        dependencies := parse_line appname ("runtime") rest st.dependencies }
    | none => st

def parseGemspecLines (appname : String) (contents : List String) (st : ParserState) :
    ParserState :=
  contents.foldl (gemspecStep appname) st

/-- Python `line.startswith(pre)`, stated over the character lists. -/
def strStarts (line pre : String) : Bool := pre.toList.isPrefixOf line.toList

/-- One line of `parse_gemfile`: skip blank and `source` lines, set Group
State from a group-block line, reset it on `end`, run a single discovered
sibling gemspec to completion on `gemspec` (zero or several discovered
files: diagnostic only, the line is skipped), and feed `gem ` lines to
`parse_line`. -/
def gemfileStep (appname : String) (gemspecFiles : List (List String))
    (st : ParserState) (rawline : String) : ParserState :=
  let line := preprocess rawline
  if line = "" || strStarts line ("source") then st
  else if strStarts line ("group") then
    match reGroup group_block_regex line with
    | some blockname => { st with global_group := blockname }
    | none => st
  else if strStarts line ("end") then { st with global_group := ("runtime") }
  else if strStarts line ("gemspec") then
    match gemspecFiles with
    | [gs] => parseGemspecLines appname gs st
    | _ => st
  else if strStarts line ("gem ") then
    { st with dependencies := parse_line appname st.global_group line st.dependencies }
  else st

def parseGemfileLines (appname : String) (gemspecFiles : List (List String))
    (contents : List String) (st : ParserState) : ParserState :=
  contents.foldl (gemfileStep appname gemspecFiles) st

/-- The function `parse`: dispatch on the file kind (the source decides it by whether
the file path ends in `gemspec`; the flag is the abstraction of that
check). A fresh instance starts with `initDeps`; the Group State is a
process-wide class attribute, so it is a parameter rather than a
constant. -/
def parse (isGemspecFile : Bool) (appname : String) (gemspecFiles : List (List String))
    (contents : List String) (g0 : String) : Deps :=
  if isGemspecFile then (parseGemspecLines appname contents ⟨g0, initDeps⟩).dependencies
  else (parseGemfileLines appname gemspecFiles contents ⟨g0, initDeps⟩).dependencies

/-!
Concrete lines used by the claims.
-/

def gemFooLine : String := "gem \"foo\", \">= 1.0\""

def gemTwoReqLine : String := "gem \"foo\", \">= 1.0\", \"< 2.0\""

def gemPathLine : String := "gem \"bar\", path: \"../bar\""

def gemGroupColonLine : String := "gem \"foo\", group: :test"

def groupBlockLine : String := "group :test do"

def gemALine : String := "gem \"a\""

def gemBLine : String := "gem \"b\""

def endLine : String := "end"

def gemspecDirectiveLine : String := "gemspec"

def gemspecDvtLine : String := "spec.add_development_dependency \"rspec\", \"~> 3.0\""

def gemspecDvtShortLine : String := "spec.add_development_dependency \"x\""

/-!
The dependency records the claims expect the parses above to file.
-/

def depFoo : Dependency :=
  { name := some ("foo"), requirement := [(">= 1.0")], group := some ("runtime") }

def depEmptyDev : Dependency := { group := some ("development") }

def depAOfTest : Dependency := { name := some ("a"), group := some ("test") }

def depADev : Dependency := { name := some ("a"), group := some ("development") }

def depBRuntime : Dependency := { name := some ("b"), group := some ("runtime") }

def depFooColonTest : Dependency := { name := some ("foo"), group := some (":test") }

def depBarPath : Dependency :=
  { name := some ("bar"), path := some ("\"../bar\""), group := some ("runtime") }

/-!
Helper lemmas about the result collection: how `Deps.file` changes
lookups and the record count, and the fact that a parse only ever extends
the collection (`Deps.grows`), which is the no-key-is-ever-removed
invariant.
-/

theorem Deps.lookup_updateFirst_self (d : Deps) (k : String) (dep : Dependency)
    (l : List Dependency) (h : d.lookup k = some l) :
    (d.updateFirst k dep).lookup k = some (l ++ [dep]) := by
  induction d with
  | nil => simp [Deps.lookup] at h
  | cons e rest ih =>
    obtain ⟨k1, l1⟩ := e
    by_cases hk : k1 = k
    · subst hk
      simp [Deps.lookup] at h
      simp [Deps.updateFirst, Deps.lookup, h]
    · simp [Deps.lookup, hk] at h
      simp [Deps.updateFirst, Deps.lookup, hk, ih h]

theorem Deps.lookup_updateFirst_ne (d : Deps) {k k2 : String} (dep : Dependency)
    (h : k2 ≠ k) : (d.updateFirst k dep).lookup k2 = d.lookup k2 := by
  induction d with
  | nil => simp [Deps.updateFirst]
  | cons e rest ih =>
    obtain ⟨k1, l1⟩ := e
    by_cases hk : k1 = k
    · simp [Deps.updateFirst, Deps.lookup, hk, Ne.symm h]
    · by_cases hk2 : k1 = k2
      · simp [Deps.updateFirst, Deps.lookup, hk, hk2, h]
      · simp [Deps.updateFirst, Deps.lookup, hk, hk2, ih]

theorem Deps.lookup_append_left {d1 : Deps} (d2 : Deps) {k : String}
    {l : List Dependency} (h : d1.lookup k = some l) : (d1 ++ d2).lookup k = some l := by
  induction d1 with
  | nil => simp [Deps.lookup] at h
  | cons e rest ih =>
    obtain ⟨k1, l1⟩ := e
    by_cases hk : k1 = k
    · subst hk
      simp [Deps.lookup] at h
      simp [Deps.lookup, h]
    · simp [Deps.lookup, hk] at h
      simp [Deps.lookup, hk, ih h]

theorem Deps.lookup_append_right {d1 : Deps} (d2 : Deps) {k : String}
    (h : d1.lookup k = none) : (d1 ++ d2).lookup k = d2.lookup k := by
  induction d1 with
  | nil => simp
  | cons e rest ih =>
    obtain ⟨k1, l1⟩ := e
    by_cases hk : k1 = k
    · subst hk
      simp [Deps.lookup] at h
    · simp [Deps.lookup, hk] at h
      simp [Deps.lookup, hk, ih h]

theorem Deps.lookup_file_self (d : Deps) (k : String) (dep : Dependency) :
    (d.file k dep).lookup k = some (((d.lookup k).getD []) ++ [dep]) := by
  unfold Deps.file
  cases h : d.lookup k with
  | some l => simpa [h] using Deps.lookup_updateFirst_self d k dep l h
  | none =>
    rw [Deps.lookup_append_right _ h]
    simp [Deps.lookup]

theorem Deps.lookup_file_ne (d : Deps) {k k2 : String} (dep : Dependency) (h : k2 ≠ k) :
    (d.file k dep).lookup k2 = d.lookup k2 := by
  unfold Deps.file
  cases hk : d.lookup k with
  | some l => exact Deps.lookup_updateFirst_ne d dep h
  | none =>
    cases h2 : d.lookup k2 with
    | some l2 => exact Deps.lookup_append_left _ h2
    | none =>
      rw [Deps.lookup_append_right _ h2]
      simp [Deps.lookup, Ne.symm h]

theorem Deps.total_updateFirst (d : Deps) (k : String) (dep : Dependency)
    (h : (d.lookup k).isSome) : (d.updateFirst k dep).total = d.total + 1 := by
  induction d with
  | nil => simp [Deps.lookup] at h
  | cons e rest ih =>
    obtain ⟨k1, l1⟩ := e
    by_cases hk : k1 = k
    · subst hk
      simp [Deps.updateFirst, Deps.total]
      omega
    · simp [Deps.lookup, hk] at h
      have := ih h
      simp [Deps.updateFirst, Deps.total, hk] at this ⊢
      omega

theorem Deps.total_file (d : Deps) (k : String) (dep : Dependency) :
    (d.file k dep).total = d.total + 1 := by
  unfold Deps.file
  cases h : d.lookup k with
  | some l => exact Deps.total_updateFirst d k dep (by simp [h])
  | none => simp [Deps.total]

/-- Relation stating `d2` extends `d1`: every key of `d1` is still present and its
sequence has only grown at the end. -/
def Deps.grows (d1 d2 : Deps) : Prop :=
  ∀ k l, d1.lookup k = some l → ∃ l2, d2.lookup k = some (l ++ l2)

theorem Deps.grows_refl (d : Deps) : d.grows d := fun _ l h => ⟨[], by simpa using h⟩

theorem Deps.grows_trans {a b c : Deps} (h1 : a.grows b) (h2 : b.grows c) : a.grows c := by
  intro k l h
  obtain ⟨x, hb⟩ := h1 k l h
  obtain ⟨y, hc⟩ := h2 k (l ++ x) hb
  exact ⟨x ++ y, by simpa [List.append_assoc] using hc⟩

theorem Deps.file_grows (d : Deps) (k : String) (dep : Dependency) :
    d.grows (d.file k dep) := by
  intro k2 l h
  by_cases hk : k2 = k
  · subst hk
    refine ⟨[dep], ?_⟩
    rw [Deps.lookup_file_self, h]
    rfl
  · exact ⟨[], by simpa using (Deps.lookup_file_ne d dep hk).trans h⟩

theorem parse_line_grows (appname g line : String) (d : Deps) :
    d.grows (parse_line appname g line d) :=
  Deps.file_grows d _ _

theorem gemspecStep_grows (appname : String) (st : ParserState) (rawline : String) :
    st.dependencies.grows (gemspecStep appname st rawline).dependencies := by
  unfold gemspecStep
  dsimp only
  cases hd : reGroup add_dvtdep_regex (preprocess rawline) with
  | some rest => exact parse_line_grows _ _ _ _
  | none =>
    cases hr : reGroup add_rundep_regex (preprocess rawline) with
    | some rest => exact parse_line_grows _ _ _ _
    | none => exact Deps.grows_refl _

theorem parseGemspecLines_grows (appname : String) (contents : List String)
    (st : ParserState) :
    st.dependencies.grows (parseGemspecLines appname contents st).dependencies := by
  induction contents generalizing st with
  | nil => exact Deps.grows_refl _
  | cons a t ih =>
    exact Deps.grows_trans (gemspecStep_grows appname st a) (ih (gemspecStep appname st a))

theorem gemfileStep_grows (appname : String) (gemspecFiles : List (List String))
    (st : ParserState) (rawline : String) :
    st.dependencies.grows (gemfileStep appname gemspecFiles st rawline).dependencies := by
  unfold gemfileStep
  dsimp only
  split
  · exact Deps.grows_refl _
  split
  · cases reGroup group_block_regex (preprocess rawline) with
    | some blockname => exact Deps.grows_refl _
    | none => exact Deps.grows_refl _
  split
  · exact Deps.grows_refl _
  split
  · cases gemspecFiles with
    | nil => exact Deps.grows_refl _
    | cons gs t =>
      cases t with
      | nil => exact parseGemspecLines_grows _ _ _
      | cons gs2 t2 => exact Deps.grows_refl _
  split
  · exact parse_line_grows _ _ _ _
  · exact Deps.grows_refl _

theorem parseGemfileLines_grows (appname : String) (gemspecFiles : List (List String))
    (contents : List String) (st : ParserState) :
    st.dependencies.grows (parseGemfileLines appname gemspecFiles contents st).dependencies := by
  induction contents generalizing st with
  | nil => exact Deps.grows_refl _
  | cons a t ih =>
    exact Deps.grows_trans (gemfileStep_grows appname gemspecFiles st a)
      (ih (gemfileStep appname gemspecFiles st a))

/-!
Helper lemmas for the line preprocessor.
-/

theorem dropWhile_of_prefix_of_nf {p : Char → Bool} {l m : List Char}
    (hnf : List.dropWhile p l = l) (hp : m <+: l) : List.dropWhile p m = m := by
  cases m with
  | nil => simp
  | cons a t =>
    obtain ⟨r, hr⟩ := hp
    subst hr
    rw [List.cons_append] at hnf
    rw [List.dropWhile_cons] at hnf ⊢
    by_cases hpa : p a
    · exfalso
      simp only [hpa, if_true] at hnf
      have hlen := congrArg List.length hnf
      rw [List.length_cons] at hlen
      have hle := List.IsSuffix.length_le (List.dropWhile_suffix (l := t ++ r) p)
      omega
    · simp [hpa]

theorem pyStrip_idem (l : List Char) : pyStrip (pyStrip l) = pyStrip l := by
  unfold pyStrip
  have h1 : ((l.dropWhile isPySpace).reverse.dropWhile isPySpace).reverse.dropWhile isPySpace
      = ((l.dropWhile isPySpace).reverse.dropWhile isPySpace).reverse := by
    apply dropWhile_of_prefix_of_nf (l := l.dropWhile isPySpace)
    · exact List.dropWhile_idempotent _ _
    · have hs : (l.dropWhile isPySpace).reverse.dropWhile isPySpace <:+
          (l.dropWhile isPySpace).reverse := List.dropWhile_suffix _
      simpa using List.IsSuffix.reverse hs
  rw [h1, List.reverse_reverse, List.dropWhile_idempotent]

theorem pyStrip_subset (l : List Char) : pyStrip l ⊆ l := by
  intro x hx
  unfold pyStrip at hx
  rw [List.mem_reverse] at hx
  have hx2 := (List.dropWhile_suffix (l := (l.dropWhile isPySpace).reverse)
    isPySpace).sublist.subset hx
  rw [List.mem_reverse] at hx2
  exact (List.dropWhile_suffix isPySpace).sublist.subset hx2

theorem preprocessList_no_hash (chars : List Char) : '#' ∉ preprocessList chars := by
  unfold preprocessList
  intro hx
  have hx2 := pyStrip_subset _ hx
  by_cases hc : chars.contains '#'
  · simp only [hc, if_true] at hx2
    have := List.mem_takeWhile_imp hx2
    simp at this
  · simp only [hc] at hx2
    simp only [if_false, Bool.false_eq_true] at hx2
    exact hc (by simpa [List.elem_iff] using hx2)

theorem preprocessList_idem (chars : List Char) :
    preprocessList (preprocessList chars) = preprocessList chars := by
  have hc : (preprocessList chars).contains '#' = false := by
    cases h : (preprocessList chars).contains '#'
    · rfl
    · exact absurd (List.elem_iff.mp h) (preprocessList_no_hash chars)
  have h1 : preprocessList (preprocessList chars) =
      pyStrip (if (preprocessList chars).contains '#'
        then (preprocessList chars).takeWhile (fun c => c != '#')
        else preprocessList chars) := rfl
  rw [h1, hc]
  simp only [Bool.false_eq_true, if_false]
  unfold preprocessList
  exact pyStrip_idem _

example : reGroup nameRe ("gem \"foo\", \">= 1.0\"") = some ("foo") := by decide
example : reGroup requirementRe ("gem \"foo\", \">= 1.0\"") = some (">= 1.0") := by decide
example : reGroup sourceRe ("gem \"foo\", \">= 1.0\"") = none := by decide
example : reGroup group_block_regex ("group :test do") = some ("test") := by decide
example : reGroup add_dvtdep_regex ("spec.add_development_dependency \"rspec\", \"~> 3.0\"")
    = some ("\"rspec\", \"~> 3.0\"") := by decide
example : reGroup nameRe ("\"rspec\", \"~> 3.0\"") = none := by decide
example : reGroup requirementRe ("gem \"foo\", \">= 1.0\", \"< 2.0\"") = some (">= 1.0") := by
  decide
example : reGroup pathRe ("gem \"bar\", path: \"../bar\"") = some ("\"../bar\"") := by decide
example : reGroup groupRe ("gem \"foo\", group: :test") = some (":test") := by decide

example : buildDep ("") ("runtime") gemFooLine = depFoo := by decide

example :
    (parseGemfileLines ("") [] [gemFooLine] ⟨("runtime"), initDeps⟩).dependencies.lookup
      ("runtime") = some [depFoo] := by
  decide

example :
    parseGemspecLines ("") [gemspecDvtLine] ⟨("runtime"), initDeps⟩ =
      ⟨("development"),
        [(("development"), [depEmptyDev]), (("runtime"), []),
         (("test"), []), (("production"), []), (("metrics"), [])]⟩ := by
  decide

example : buildDep ("") ("runtime") gemPathLine = depBarPath := by decide

example :
    (parseGemfileLines ("") [] [gemGroupColonLine] ⟨("runtime"), initDeps⟩).dependencies =
      initDeps ++ [((":test"), [depFooColonTest])] := by
  decide

example :
    parseGemfileLines ("") [[gemspecDvtShortLine]] [gemspecDirectiveLine, gemALine]
        ⟨("runtime"), initDeps⟩ =
      ⟨("development"),
        [(("development"), [depEmptyDev, depADev]),
         (("runtime"), []), (("test"), []), (("production"), []), (("metrics"), [])]⟩ := by
  decide

example :
    parseGemfileLines ("") [] [groupBlockLine, gemALine, endLine, gemBLine]
        ⟨("runtime"), initDeps⟩ =
      ⟨("runtime"),
        [(("development"), []),
         (("runtime"), [depBRuntime]),
         (("test"), [depAOfTest]),
         (("production"), []), (("metrics"), [])]⟩ := by
  decide

/-!
The claims.
-/

/-- C1: running the gemspec parser on the line
`spec.add_development_dependency "rspec", "~> 3.0"` files exactly one
Dependency under the development key, but that record has `name = none`
and an empty requirement sequence: the remainder the directive extracts
(`"rspec", "~> 3.0"`) is run through the Dependency Builder, whose name
and requirement patterns demand a line starting with `gem `, so nothing
is extracted. This contradicts the claimed `name == "rspec"` and
`requirement == ["~> 3.0"]`. -/
theorem claim_C1_gemspec_dvtdep_files_empty_record :
    (parseGemspecLines ("") [gemspecDvtLine] ⟨("runtime"), initDeps⟩).dependencies.lookup
        ("development") = some [depEmptyDev] ∧
    depEmptyDev.name = none ∧ depEmptyDev.requirement = [] ∧
    (parseGemspecLines ("") [gemspecDvtLine] ⟨("runtime"), initDeps⟩).dependencies.total
      = 1 := by
  decide

/-- C2 witnessed below: a Gemfile whose lines contain
`gem "foo", ">= 1.0"` at a point where the Group State is still at its
initial value `runtime` (no enclosing group block) files a Dependency
with name `foo` and requirement `[">= 1.0"]`, appended to the sequence
under the `runtime` key. -/
theorem claim_C2_gem_foo_default_runtime (pre post : List String)
    (gsf : List (List String))
    (h : (parseGemfileLines ("") gsf pre ⟨("runtime"), initDeps⟩).global_group
      = ("runtime")) :
    ∃ l1 l2,
      (parseGemfileLines ("") gsf (pre ++ gemFooLine :: post)
          ⟨("runtime"), initDeps⟩).dependencies.lookup ("runtime") =
        some (l1 ++ depFoo :: l2) ∧
      depFoo.name = some ("foo") ∧ depFoo.requirement = [(">= 1.0")] := by
  obtain ⟨l1, hl1⟩ := parseGemfileLines_grows ("") gsf pre ⟨("runtime"), initDeps⟩
    ("runtime") [] (by decide)
  rw [List.nil_append] at hl1
  have hsplit : parseGemfileLines ("") gsf (pre ++ gemFooLine :: post)
      ⟨("runtime"), initDeps⟩ =
      parseGemfileLines ("") gsf post
        (gemfileStep ("") gsf (parseGemfileLines ("") gsf pre ⟨("runtime"), initDeps⟩)
          gemFooLine) := by
    unfold parseGemfileLines
    rw [List.foldl_append]
    rfl
  have h1 : gemfileStep ("") gsf (parseGemfileLines ("") gsf pre ⟨("runtime"), initDeps⟩)
      gemFooLine =
      { parseGemfileLines ("") gsf pre ⟨("runtime"), initDeps⟩ with
        dependencies := parse_line ("")
          (parseGemfileLines ("") gsf pre ⟨("runtime"), initDeps⟩).global_group gemFooLine
          (parseGemfileLines ("") gsf pre ⟨("runtime"), initDeps⟩).dependencies } := rfl
  rw [h] at h1
  have h2 : ∀ dd : Deps,
      parse_line ("") ("runtime") gemFooLine dd = dd.file ("runtime") depFoo := by
    intro dd
    unfold parse_line
    rw [show buildDep ("") ("runtime") gemFooLine = depFoo from by decide]
    rfl
  rw [h2] at h1
  have hfile : ((parseGemfileLines ("") gsf pre
      ⟨("runtime"), initDeps⟩).dependencies.file ("runtime") depFoo).lookup ("runtime") =
      some (l1 ++ [depFoo]) := by
    rw [Deps.lookup_file_self, hl1]
    rfl
  obtain ⟨l2, hl2⟩ := parseGemfileLines_grows ("") gsf post
    ({ parseGemfileLines ("") gsf pre ⟨("runtime"), initDeps⟩ with
       dependencies := ((parseGemfileLines ("") gsf pre
         ⟨("runtime"), initDeps⟩).dependencies.file ("runtime") depFoo) })
    ("runtime") (l1 ++ [depFoo]) hfile
  refine ⟨l1, l2, ?_, by decide, by decide⟩
  rw [hsplit, h1, hl2]
  simp

/-- C2 witness: the one-line Gemfile instance. -/
theorem claim_C2_gem_foo_default_runtime_witness :
    ∃ l1 l2,
      (parseGemfileLines ("") [] ([] ++ gemFooLine :: [])
          ⟨("runtime"), initDeps⟩).dependencies.lookup ("runtime") =
        some (l1 ++ depFoo :: l2) ∧
      depFoo.name = some ("foo") ∧ depFoo.requirement = [(">= 1.0")] :=
  claim_C2_gem_foo_default_runtime [] [] [] (by decide)

/-- C3: from any starting Group State and any collection that carries the
`test` and `runtime` keys, processing `group :test do`, a gem line, `end`
and another gem line files the first dependency under `test` (the block
start sets the Group State to the extracted name) and the second under
`runtime` (the `end` line resets the Group State). -/
theorem claim_C3_group_block_scoping (g0 : String) (gsf : List (List String)) (d : Deps)
    (t r : List Dependency) (ht : d.lookup ("test") = some t)
    (hr : d.lookup ("runtime") = some r) :
    (parseGemfileLines ("") gsf [groupBlockLine, gemALine, endLine, gemBLine]
        ⟨g0, d⟩).dependencies.lookup ("test") = some (t ++ [depAOfTest]) ∧
    (parseGemfileLines ("") gsf [groupBlockLine, gemALine, endLine, gemBLine]
        ⟨g0, d⟩).dependencies.lookup ("runtime") = some (r ++ [depBRuntime]) ∧
    (parseGemfileLines ("") gsf [groupBlockLine, gemALine, endLine, gemBLine]
        ⟨g0, d⟩).global_group = ("runtime") := by
  have s1 : gemfileStep ("") gsf ⟨g0, d⟩ groupBlockLine = ⟨("test"), d⟩ := rfl
  have s2 : gemfileStep ("") gsf ⟨("test"), d⟩ gemALine =
      ⟨("test"), d.file ("test") depAOfTest⟩ := by
    have e : gemfileStep ("") gsf ⟨("test"), d⟩ gemALine =
        ⟨("test"), parse_line ("") ("test") gemALine d⟩ := rfl
    rw [e]
    unfold parse_line
    rw [show buildDep ("") ("test") gemALine = depAOfTest from by decide]
    rfl
  have s3 : gemfileStep ("") gsf ⟨("test"), d.file ("test") depAOfTest⟩ endLine =
      ⟨("runtime"), d.file ("test") depAOfTest⟩ := rfl
  have s4 : gemfileStep ("") gsf ⟨("runtime"), d.file ("test") depAOfTest⟩ gemBLine =
      ⟨("runtime"), (d.file ("test") depAOfTest).file ("runtime") depBRuntime⟩ := by
    have e : gemfileStep ("") gsf ⟨("runtime"), d.file ("test") depAOfTest⟩ gemBLine =
        ⟨("runtime"), parse_line ("") ("runtime") gemBLine (d.file ("test") depAOfTest)⟩ :=
      rfl
    rw [e]
    unfold parse_line
    rw [show buildDep ("") ("runtime") gemBLine = depBRuntime from by decide]
    rfl
  have hfold : parseGemfileLines ("") gsf [groupBlockLine, gemALine, endLine, gemBLine]
      ⟨g0, d⟩ = ⟨("runtime"), (d.file ("test") depAOfTest).file ("runtime") depBRuntime⟩ := by
    unfold parseGemfileLines
    simp only [List.foldl_cons, List.foldl_nil]
    rw [s1, s2, s3, s4]
  rw [hfold]
  refine ⟨?_, ?_, rfl⟩
  · rw [Deps.lookup_file_ne _ _ (by decide : ("test" : String) ≠ ("runtime"))]
    rw [Deps.lookup_file_self, ht]
    simp
  · rw [Deps.lookup_file_self]
    rw [Deps.lookup_file_ne _ _ (by decide : ("runtime" : String) ≠ ("test")), hr]
    simp

/-- C3 witness: the block sequence run from the initial state and the
fresh collection. -/
theorem claim_C3_group_block_scoping_witness :
    (parseGemfileLines ("") [] [groupBlockLine, gemALine, endLine, gemBLine]
        ⟨("runtime"), initDeps⟩).dependencies.lookup ("test") = some ([] ++ [depAOfTest]) ∧
    (parseGemfileLines ("") [] [groupBlockLine, gemALine, endLine, gemBLine]
        ⟨("runtime"), initDeps⟩).dependencies.lookup ("runtime")
      = some ([] ++ [depBRuntime]) ∧
    (parseGemfileLines ("") [] [groupBlockLine, gemALine, endLine, gemBLine]
        ⟨("runtime"), initDeps⟩).global_group = ("runtime") :=
  claim_C3_group_block_scoping ("runtime") [] initDeps [] [] (by decide) (by decide)

/-- C4: every parse result, for every input (the empty file included) and
every starting Group State, carries the five predefined keys, and no
parsing step ever removes a key: both dialect steps only extend the
collection (`Deps.grows`). -/
theorem claim_C4_predefined_keys_always_present :
    (∀ (b : Bool) (appname g0 : String) (gsf : List (List String))
        (contents : List String),
      ((parse b appname gsf contents g0).lookup ("development")).isSome = true ∧
      ((parse b appname gsf contents g0).lookup ("runtime")).isSome = true ∧
      ((parse b appname gsf contents g0).lookup ("test")).isSome = true ∧
      ((parse b appname gsf contents g0).lookup ("production")).isSome = true ∧
      ((parse b appname gsf contents g0).lookup ("metrics")).isSome = true) ∧
    (∀ (appname : String) (gsf : List (List String)) (st : ParserState) (line : String),
      st.dependencies.grows (gemfileStep appname gsf st line).dependencies) ∧
    (∀ (appname : String) (st : ParserState) (line : String),
      st.dependencies.grows (gemspecStep appname st line).dependencies) := by
  refine ⟨?_, gemfileStep_grows, gemspecStep_grows⟩
  intro b app g0 gsf contents
  have hg : Deps.grows initDeps (parse b app gsf contents g0) := by
    unfold parse
    cases b
    · rw [if_neg (by decide)]
      exact parseGemfileLines_grows app gsf contents ⟨g0, initDeps⟩
    · rw [if_pos (by decide)]
      exact parseGemspecLines_grows app contents ⟨g0, initDeps⟩
  have hkey : ∀ k, initDeps.lookup k = some [] →
      ((parse b app gsf contents g0).lookup k).isSome = true := by
    intro k hk
    obtain ⟨l2, h2⟩ := hg k [] hk
    simp [h2]
  exact ⟨hkey _ (by decide), hkey _ (by decide), hkey _ (by decide), hkey _ (by decide),
    hkey _ (by decide)⟩

/-- C4 witness: the development key of an empty Gemfile parse. -/
theorem claim_C4_predefined_keys_always_present_witness :
    ((parse false ("") [] [] ("runtime")).lookup ("development")).isSome = true :=
  (claim_C4_predefined_keys_always_present.1 false ("") ("runtime") [] []).1

/-- C5: a `gemspec` directive that resolves to exactly one sibling
gemspec file runs the gemspec parse to completion, on the shared state,
before the rest of the Gemfile, and the Group State the gemspec parse
leaves behind is not restored; concretely, with a gemspec whose last
matched directive is add_development_dependency, a following gem line is
filed under development. -/
theorem claim_C5_gemspec_inclusion_shares_state :
    (∀ (gs : List String) (post : List String) (g0 : String) (d : Deps),
      parseGemfileLines ("") [gs] (gemspecDirectiveLine :: post) ⟨g0, d⟩ =
        parseGemfileLines ("") [gs] post (parseGemspecLines ("") gs ⟨g0, d⟩)) ∧
    (parseGemfileLines ("") [[gemspecDvtShortLine]] [gemspecDirectiveLine, gemALine]
        ⟨("runtime"), initDeps⟩).global_group = ("development") ∧
    (parseGemfileLines ("") [[gemspecDvtShortLine]] [gemspecDirectiveLine, gemALine]
        ⟨("runtime"), initDeps⟩).dependencies.lookup ("development") =
      some [depEmptyDev, depADev] := by
  refine ⟨?_, by decide, by decide⟩
  intro gs post g0 d
  rfl

/-- C6 counterexample: on `gem "foo", ">= 1.0", "< 2.0"` the requirement
sequence does not retain both constraint clauses. -/
theorem claim_C6_counterexample :
    (buildDep ("") ("runtime") gemTwoReqLine).requirement ≠ [(">= 1.0"), ("< 2.0")] := by
  decide

/-- C6 amended: a requirement match is appended to the requirement
sequence rather than overwriting it, but the pattern is attempted only
once per line and its capture stops at the first closing quote, so on
`gem "foo", ">= 1.0", "< 2.0"` only `">= 1.0"` is retained. -/
theorem claim_C6_requirement_appended_single_capture :
    (buildDep ("") ("runtime") gemTwoReqLine).requirement = [(">= 1.0")] ∧
    (∀ (dep : Dependency) (line : String),
      (applyCriteria line dep (("requirement"), requirementRe)).requirement =
        dep.requirement ++ (match reGroup requirementRe line with
          | some v => [v]
          | none => [])) := by
  refine ⟨by decide, ?_⟩
  intro dep line
  dsimp only [applyCriteria]
  cases h : reGroup requirementRe line with
  | some v => simp
  | none => simp

/-- C7 counterexample: the path attribute captured from
`gem "bar", path: "../bar"` is not the bare `../bar`. -/
theorem claim_C7_counterexample :
    (buildDep ("") ("runtime") gemPathLine).path ≠ some ("../bar") := by decide

/-- C7 amended: `gem "bar", path: "../bar"` yields name `bar`, an empty
requirement sequence, and a path capture that keeps both surrounding
quotes: the pattern captures from the character after `path: ` through
the closing quote or parenthesis, trimming nothing. -/
theorem claim_C7_path_capture_keeps_quotes :
    buildDep ("") ("runtime") gemPathLine = depBarPath ∧
    depBarPath.path = some ("\"../bar\"") ∧ depBarPath.name = some ("bar") ∧
    depBarPath.requirement = [] := by
  decide

/-- C8: the Dependency Builder and filing always succeed on every line
(whatever matched or failed to match): the built record is appended at
the end of the sequence under its group key when that key exists, a new
key with a one-element sequence is created otherwise, and the total
record count rises by exactly one: no dependency line is discarded. -/
theorem claim_C8_dependency_always_filed (appname g line : String) (d : Deps) :
    (∀ l, d.lookup ((buildDep appname g line).group.getD g) = some l →
      (parse_line appname g line d).lookup ((buildDep appname g line).group.getD g) =
        some (l ++ [buildDep appname g line])) ∧
    (d.lookup ((buildDep appname g line).group.getD g) = none →
      parse_line appname g line d =
        d ++ [(((buildDep appname g line).group.getD g), [buildDep appname g line])]) ∧
    (parse_line appname g line d).total = d.total + 1 := by
  refine ⟨?_, ?_, ?_⟩
  · intro l hl
    unfold parse_line
    rw [Deps.lookup_file_self, hl]
    rfl
  · intro h
    have e : parse_line appname g line d =
        d.file ((buildDep appname g line).group.getD g) (buildDep appname g line) := rfl
    rw [e]
    unfold Deps.file
    rw [h]
  · exact Deps.total_file _ _ _

/-- C8 witness: filing `gem "a"` into the fresh collection under
`runtime`. -/
theorem claim_C8_dependency_always_filed_witness :
    (parse_line ("") ("runtime") gemALine initDeps).lookup
        ((buildDep ("") ("runtime") gemALine).group.getD ("runtime")) =
      some ([] ++ [buildDep ("") ("runtime") gemALine]) :=
  (claim_C8_dependency_always_filed ("") ("runtime") gemALine initDeps).1 [] (by decide)

/-- C9: the Line Preprocessor (strip from the first hash character, then
strip surrounding whitespace) is idempotent; it is a total function by
construction. -/
theorem claim_C9_preprocess_idempotent (line : String) :
    preprocess (preprocess line) = preprocess line :=
  congrArg String.mk (preprocessList_idem line.toList)

/-- C10: a per-line group attribute written as a Ruby symbol keeps its
leading colon, so `gem "foo", group: :test` is filed under a new key
`:test`, distinct from the `test` key a `group :test do` block produces
(the block pattern consumes the colon before the captured name). -/
theorem claim_C10_symbol_group_key_keeps_colon :
    (buildDep ("") ("runtime") gemGroupColonLine).group = some (":test") ∧
    (parseGemfileLines ("") [] [gemGroupColonLine] ⟨("runtime"), initDeps⟩).dependencies =
      initDeps ++ [((":test"), [depFooColonTest])] ∧
    reGroup group_block_regex groupBlockLine = some ("test") ∧
    ((":test") : String) ≠ ("test") := by
  decide
